import Mathlib

/-!
Verification of the bar-graph rendering and layout logic of
`src/resource_monitor.py` (a curses-based terminal resource monitor).

The terminal display surface is modelled as a total function from
(row, column) to the character shown in that cell; `curses.window.addstr`
becomes a functional overwrite of consecutive cells in one row.  Numeric
samples are modelled as integers: the source applies Python `round` to the
value passed to `BarGraph.__call__`, which is the identity on integers, and
all properties checked here quantify over integer values.  Exact rational
arithmetic stands in for Python float arithmetic in the memory-percentage
computation, and nearest-integer rounding for Python `round` (the two agree
except on exact half-integer ties).  A failing `assert` raises before any
drawing, which is modelled by `Except.error` results that carry no screen.
-/

/-- A terminal display surface: the character at each (row, column) cell. -/
def Screen : Type := Nat → Nat → Char

/-- Model of `curses.window.addstr(y, x, text)`: overwrite the cells of row
`y` starting at column `x` with the characters of `text`; every other cell
keeps its previous content. -/
def addstr (s : Screen) (y x : Nat) (cs : List Char) : Screen :=
  fun r c =>
    if r = y ∧ x ≤ c ∧ c < x + cs.length then cs.getD (c - x) ' '
    else s r c

/-- Model of `curses.textpad.rectangle(win, uly, ulx, lry, lrx)`: draw a
border between the two corners (the curses ACS box-drawing glyphs are
rendered here as the corresponding Unicode box characters). -/
def rectangle (s : Screen) (uly ulx lry lrx : Nat) : Screen :=
  fun r c =>
    if r = uly ∧ c = ulx then '┌'
    else if r = uly ∧ c = lrx then '┐'
    else if r = lry ∧ c = ulx then '└'
    else if r = lry ∧ c = lrx then '┘'
    else if (r = uly ∨ r = lry) ∧ ulx ≤ c ∧ c ≤ lrx then '─'
    else if (c = ulx ∨ c = lrx) ∧ uly ≤ r ∧ r ≤ lry then '│'
    else s r c

/-- An all-blank display surface. -/
def blankScreen : Screen := fun _ _ => ' '

/-- The character for the decimal digit `d`. -/
def digitChar (d : Nat) : Char := Char.ofNat (48 + d)

/-- Fuel-driven decimal-digit expansion (structural recursion so that the
kernel can evaluate it). -/
def natDigitsAux : Nat → Nat → List Char
  | 0, _ => []
  | fuel + 1, n =>
      if n < 10 then [digitChar n]
      else natDigitsAux fuel (n / 10) ++ [digitChar (n % 10)]

/-- Decimal representation of a natural number, matching Python `str`. -/
def natRepr (n : Nat) : List Char := natDigitsAux (n + 1) n

/-- The pointer text `"┌<value>%"` printed by `BarGraph.__call__`. -/
def ptrText (n : Nat) : List Char := '┌' :: (natRepr n ++ ['%'])

/-- Left-justified padding to a minimum width, matching the Python format
specifier in the f-string of the layout code. -/
def padRight (cs : List Char) (w : Nat) : List Char :=
  cs ++ List.replicate (w - cs.length) ' '

/-- The label `f"CPU{cpu_id:<2}"` built by `advanced_init`. -/
def cpuLabel (i : Nat) : List Char := ['C', 'P', 'U'] ++ padRight (natRepr i) 2

/-- The coordinate state a `BarGraph` instance stores: the pointer-row
anchor and the bar-start cell, as computed in `BarGraph.__init__` (the
shared curses window is passed explicitly to each operation instead of
being stored). -/
structure BarGraph where
  pointer_y : Nat
  pointer_x : Nat
  bar_y : Nat
  bar_x : Nat

/-- Model of `BarGraph.__init__(stdscr, pos_y, pos_x, label)`: compute the
derived coordinates and draw the static frame (initial pointer `"┌0%"`,
label with separator and bracketed empty 19-cell bar, and the `0`/`100`
scale row). -/
def barGraphInit (s : Screen) (pos_y pos_x : Nat) (label : List Char) : BarGraph × Screen :=
  let g : BarGraph :=
    { pointer_y := pos_y
      pointer_x := pos_x + label.length + 1
      bar_y := pos_y + 1
      bar_x := pos_x + label.length + 2 }
  let s1 := addstr s g.pointer_y g.pointer_x ['┌', '0', '%']
  let s2 := addstr s1 g.bar_y pos_x (label ++ [' ', '|'] ++ List.replicate 19 '░' ++ ['|'])
  let s3 := addstr s2 (g.bar_y + 1) (g.bar_x - 1) ['0']
  let s4 := addstr s3 (g.bar_y + 1) (g.bar_x + 18) ['1', '0', '0']
  (g, s4)

/-- The bar-row text drawn by `BarGraph.__call__` for a (rounded) value
`n`: `blocks` filled glyphs followed by `19 - blocks` empty glyphs, except
that at `100` only `blocks - 1` filled glyphs are drawn. -/
def barCells (n : Nat) : List Char :=
  if n ≠ 100 then List.replicate (n / 5) '█' ++ List.replicate (19 - n / 5) '░'
  else List.replicate (n / 5 - 1) '█'

/-- The drawing part of `BarGraph.__call__` for an in-range (rounded) value
`n`: erase the 25-cell pointer span, print the new pointer at offset
`blocks` from the pointer anchor, and print the bar row. -/
def barDraw (g : BarGraph) (n : Nat) (s : Screen) : Screen :=
  let blocks := n / 5
  let s1 := addstr s g.pointer_y g.pointer_x (List.replicate 25 ' ')
  let s2 := addstr s1 g.pointer_y (g.pointer_x + blocks) (ptrText n)
  addstr s2 g.bar_y g.bar_x (barCells n)

/-- The assertion message of `BarGraph.__call__`. -/
def rangeMsg : String := "Given value not in range <0;100>"

/-- Model of `BarGraph.__call__(value)`: the `assert 0 <= value <= 100`
aborts with its message before any drawing; otherwise the rounded value is
drawn (rounding is the identity on the integer values modelled here). -/
def barUpdate (g : BarGraph) (v : Int) (s : Screen) : Except String Screen :=
  if 0 ≤ v ∧ v ≤ 100 then Except.ok (barDraw g v.toNat s)
  else Except.error rangeMsg

/-- The display surface after a call of `BarGraph.__call__`: the drawn
screen on success, the unchanged screen when the assertion fails (the
failure happens before any drawing). -/
def runUpdate (g : BarGraph) (v : Int) (s : Screen) : Screen :=
  match barUpdate g v s with
  | Except.ok t => t
  | Except.error _ => s

/-- The display surface after a sequence of `BarGraph.__call__` calls. -/
def runUpdates (g : BarGraph) (vs : List Int) (s : Screen) : Screen :=
  vs.foldl (fun t u => runUpdate g u t) s

/-- The title of the basic-mode frame. -/
def basicTitle : List Char := " Basic ".toList

/-- Model of `basic_init(stdscr)`: draw the basic frame and title, then
create the aggregate `CPU` graph at `(1, 3)` and the `RAM` graph at
`(1, 34)`, returning both handles. -/
def basicInit (s : Screen) : (BarGraph × BarGraph) × Screen :=
  let s1 := rectangle s 0 0 4 63
  let s2 := addstr s1 0 2 basicTitle
  let cpu := barGraphInit s2 1 3 ['C', 'P', 'U']
  let ram := barGraphInit cpu.2 1 34 ['R', 'A', 'M']
  ((cpu.1, ram.1), ram.2)

/-- The RAM percentage computed by `basic_update`:
`round((mem_stats.total - mem_stats.available) / mem_stats.total * 100)`,
with Python float arithmetic modelled as exact rational arithmetic and
Python `round` as nearest-integer rounding. -/
def ramUsage (total available : Nat) : Int :=
  round ((((total : ℚ) - (available : ℚ)) / (total : ℚ)) * 100)

/-- Model of `basic_update(cpu_graph, ram_graph)`: the two psutil samples
(aggregate CPU percent, and the memory snapshot's total and available
bytes) are parameters standing for the external metrics source; the CPU
graph is updated first, then the RAM graph with the computed percentage. -/
def basicUpdate (cg rg : BarGraph) (cpuSample : Int) (total available : Nat)
    (s : Screen) : Except String Screen :=
  (barUpdate cg cpuSample s).bind (fun s1 => barUpdate rg (ramUsage total available) s1)

/-- A graph created by `advanced_init`, together with the label it was
created with (the Python object keeps the label only on screen; it is
carried here so that layout properties can mention it). -/
structure MadeGraph where
  g : BarGraph
  label : List Char

/-- The loop body of `advanced_init`: for each remaining row, create the
left graph at column 1 and the right graph at column 32, three screen rows
apart per row, incrementing the running core index by two. -/
def advLoop : Nat → Nat → Nat → Screen → List MadeGraph × Screen
  | 0, _, _, s => ([], s)
  | r + 1, row, cid, s =>
      let pl := barGraphInit s (3 * row + 6) 1 (cpuLabel cid)
      let pr := barGraphInit pl.2 (3 * row + 6) 32 (cpuLabel (cid + 1))
      let rest := advLoop r (row + 1) (cid + 2) pr.2
      ({ g := pl.1, label := cpuLabel cid } :: { g := pr.1, label := cpuLabel (cid + 1) } :: rest.1,
       rest.2)

/-- The title of the advanced-mode frame. -/
def advancedTitle : List Char := " Advanced ".toList

/-- Model of `advanced_init(stdscr)`: the core count reported by
`psutil.cpu_count()` is the parameter `C`; the row count is
`int(C / 2)` (truncating division), the frame and title are drawn, and the
graphs are created row by row with the running core index starting at 1. -/
def advancedInit (C : Nat) (s : Screen) : List MadeGraph × Screen :=
  let rows := C / 2
  let s1 := rectangle s 5 0 (6 + 3 * rows) 63
  let s2 := addstr s1 5 2 advancedTitle
  advLoop rows 0 1 s2

/-- The assertion message of `advanced_update`. -/
def mismatchMsg : String := "Quantity of graphs do not match quantity of CPUs"

/-- The update loop of `advanced_update`: push each sample to the graph
zipped with it, in order; a failing update aborts the rest. -/
def zipLoop : List (BarGraph × Int) → Screen → Except String Screen
  | [], s => Except.ok s
  | p :: ps, s => (barUpdate p.1 p.2 s).bind (zipLoop ps)

/-- Model of `advanced_update(cpu_graphs)`: the per-core samples returned
by `psutil.cpu_percent(percpu=True)` are the parameter `vs`; the length
assertion runs before any graph is touched, then each sample is pushed to
the graph at the same position. -/
def advancedUpdate (gs : List BarGraph) (vs : List Int) (s : Screen) : Except String Screen :=
  if gs.length = vs.length then zipLoop (gs.zip vs) s
  else Except.error mismatchMsg

/-- Following the spec's words, the positional push: the first sample goes
to the first graph, the second to the second, and so on, with a mismatch
in length a validation error.  `advanced_update` is proved to refine this
when the lengths agree. -/
def pushEach : List BarGraph → List Int → Screen → Except String Screen
  | [], [], s => Except.ok s
  | g :: gs, v :: vs, s => (barUpdate g v s).bind (pushEach gs vs)
  | _, _, _ => Except.error mismatchMsg

/-- A placeholder graph used as the default of positional list lookups. -/
def mgDefault : MadeGraph :=
  { g := { pointer_y := 0, pointer_x := 0, bar_y := 0, bar_x := 0 }, label := [] }

/-- A small concrete graph geometry used to instantiate the general
theorems on concrete inputs. -/
def demoGraph : BarGraph := { pointer_y := 0, pointer_x := 0, bar_y := 1, bar_x := 2 }

lemma getD_replicate_of_lt (k i : Nat) (x d : Char) (h : i < k) :
    (List.replicate k x).getD i d = x := by
  induction k generalizing i with
  | zero => omega
  | succ k ih =>
    cases i with
    | zero => simp [List.replicate_succ]
    | succ i => simpa [List.replicate_succ] using ih i (by omega)

lemma getD_replicate_self (k i : Nat) (x : Char) : (List.replicate k x).getD i x = x := by
  induction k generalizing i with
  | zero => simp
  | succ k ih =>
    cases i with
    | zero => simp [List.replicate_succ]
    | succ i => simp [List.replicate_succ, ih i]

lemma getD_replicate_append (a b i : Nat) (x y d : Char) (h : i < a + b) :
    (List.replicate a x ++ List.replicate b y).getD i d = if i < a then x else y := by
  induction a generalizing i with
  | zero => simpa using getD_replicate_of_lt b i y d (by omega)
  | succ a ih =>
    cases i with
    | zero => simp [List.replicate_succ]
    | succ i =>
      rw [List.replicate_succ, List.cons_append, List.getD_cons_succ, ih i (by omega)]
      simp [Nat.add_lt_add_iff_right]

lemma barCells_length {n : Nat} (hn : n ≤ 100) : (barCells n).length = 19 := by
  by_cases h : n = 100
  · simp [barCells, h]
  · have : n / 5 ≤ 19 := by omega
    simp [barCells, h]
    omega

lemma ptrText_span {n : Nat} (hn : n ≤ 100) : n / 5 + (ptrText n).length ≤ 25 := by
  have h : ∀ m, m < 101 → m / 5 + (ptrText m).length ≤ 25 := by decide
  exact h n (by omega)

lemma barCells_getD {n : Nat} (hn : n ≤ 100) {i : Nat} (hi : i < 19) :
    (barCells n).getD i ' ' = if n = 100 then '█' else if i < n / 5 then '█' else '░' := by
  by_cases h : n = 100
  · subst h
    have hb : barCells 100 = List.replicate 19 '█' := by rfl
    rw [if_pos rfl, hb, getD_replicate_of_lt 19 i '█' ' ' hi]
  · have h5 : n / 5 ≤ 19 := by omega
    rw [if_neg h]
    have hb : barCells n = List.replicate (n / 5) '█' ++ List.replicate (19 - n / 5) '░' := by
      simp [barCells, h]
    rw [hb, getD_replicate_append (n / 5) (19 - n / 5) i '█' '░' ' ' (by omega)]

lemma barDraw_apply (g : BarGraph) (n : Nat) (s : Screen) (r c : Nat) :
    barDraw g n s r c =
      if r = g.bar_y ∧ g.bar_x ≤ c ∧ c < g.bar_x + (barCells n).length then
        (barCells n).getD (c - g.bar_x) ' '
      else if r = g.pointer_y ∧ g.pointer_x + n / 5 ≤ c ∧
          c < g.pointer_x + n / 5 + (ptrText n).length then
        (ptrText n).getD (c - (g.pointer_x + n / 5)) ' '
      else if r = g.pointer_y ∧ g.pointer_x ≤ c ∧ c < g.pointer_x + 25 then ' '
      else s r c := by
  unfold barDraw addstr
  simp only [List.length_replicate, getD_replicate_self]

lemma runUpdate_valid (g : BarGraph) {v : Int} (h0 : 0 ≤ v) (h1 : v ≤ 100) (s : Screen) :
    runUpdate g v s = barDraw g v.toNat s := by
  unfold runUpdate barUpdate
  rw [if_pos ⟨h0, h1⟩]

lemma barDraw_barDraw (g : BarGraph) {m n : Nat} (hm : m ≤ 100) (hn : n ≤ 100) (s : Screen) :
    barDraw g m (barDraw g n s) = barDraw g m s := by
  have hbm := barCells_length hm
  have hbn := barCells_length hn
  have hpn := ptrText_span hn
  funext r c
  rw [barDraw_apply, barDraw_apply, barDraw_apply, hbm, hbn]
  split_ifs <;> first | rfl | omega

lemma runUpdate_runUpdate (g : BarGraph) {u v : Int} (hu0 : 0 ≤ u) (hu1 : u ≤ 100)
    (hv0 : 0 ≤ v) (hv1 : v ≤ 100) (s : Screen) :
    runUpdate g v (runUpdate g u s) = runUpdate g v s := by
  rw [runUpdate_valid g hu0 hu1, runUpdate_valid g hv0 hv1, runUpdate_valid g hv0 hv1]
  exact barDraw_barDraw g (by omega) (by omega) s

lemma barGraphInit_fst (s : Screen) (pos_y pos_x : Nat) (label : List Char) :
    (barGraphInit s pos_y pos_x label).1 =
      { pointer_y := pos_y
        pointer_x := pos_x + label.length + 1
        bar_y := pos_y + 1
        bar_x := pos_x + label.length + 2 } := rfl

lemma advLoop_succ (r row cid : Nat) (s : Screen) :
    (advLoop (r + 1) row cid s).1 =
      { g := (barGraphInit s (3 * row + 6) 1 (cpuLabel cid)).1, label := cpuLabel cid } ::
      { g := (barGraphInit (barGraphInit s (3 * row + 6) 1 (cpuLabel cid)).2
                (3 * row + 6) 32 (cpuLabel (cid + 1))).1,
        label := cpuLabel (cid + 1) } ::
      (advLoop r (row + 1) (cid + 2)
        (barGraphInit (barGraphInit s (3 * row + 6) 1 (cpuLabel cid)).2
          (3 * row + 6) 32 (cpuLabel (cid + 1))).2).1 := rfl

lemma advLoop_length (r : Nat) : ∀ (row cid : Nat) (s : Screen),
    (advLoop r row cid s).1.length = 2 * r := by
  induction r with
  | zero => intro row cid s; rfl
  | succ r ih =>
    intro row cid s
    rw [advLoop_succ]
    simp [ih]
    omega

lemma advLoop_getD (r : Nat) : ∀ (row cid : Nat) (s : Screen) (k : Nat), k < 2 * r →
    ((advLoop r row cid s).1.getD k mgDefault).label = cpuLabel (cid + k) ∧
    ((advLoop r row cid s).1.getD k mgDefault).g.pointer_y = 3 * (row + k / 2) + 6 ∧
    ((advLoop r row cid s).1.getD k mgDefault).g.pointer_x =
      (if k % 2 = 0 then 1 else 32) + (cpuLabel (cid + k)).length + 1 ∧
    ((advLoop r row cid s).1.getD k mgDefault).g.bar_y = 3 * (row + k / 2) + 6 + 1 ∧
    ((advLoop r row cid s).1.getD k mgDefault).g.bar_x =
      (if k % 2 = 0 then 1 else 32) + (cpuLabel (cid + k)).length + 2 := by
  induction r with
  | zero => intro row cid s k hk; omega
  | succ r ih =>
    intro row cid s k hk
    rcases k with _ | k
    · rw [advLoop_succ]
      simp [barGraphInit_fst]
    · rcases k with _ | j
      · rw [advLoop_succ]
        simp [barGraphInit_fst]
      · have h2 : cid + 2 + j = cid + (j + 2) := by omega
        have h3 : row + 1 + j / 2 = row + (j + 2) / 2 := by omega
        have h4 : (j + 2) % 2 = j % 2 := by omega
        have hrec := ih (row + 1) (cid + 2)
          (barGraphInit (barGraphInit s (3 * row + 6) 1 (cpuLabel cid)).2
            (3 * row + 6) 32 (cpuLabel (cid + 1))).2 j (by omega)
        rw [h2, h3] at hrec
        rw [advLoop_succ, List.getD_cons_succ, List.getD_cons_succ, h4]
        exact hrec

example : natRepr 0 = ['0'] := by decide
example : natRepr 100 = ['1', '0', '0'] := by decide
example : cpuLabel 7 = ['C', 'P', 'U', '7', ' '] := by decide
example : cpuLabel 10 = ['C', 'P', 'U', '1', '0'] := by decide
example : (barCells 100).length = 19 := by decide
example : (barCells 99).length = 19 := by decide
example : runUpdate { pointer_y := 0, pointer_x := 0, bar_y := 1, bar_x := 2 } 50 blankScreen 1 3 = '█' := by decide
example : (advancedInit 5 blankScreen).1.length = 4 := by decide
example : (advancedInit 8 blankScreen).1.length = 8 := by decide
example : ((advancedInit 8 blankScreen).1.getD 7 { g := { pointer_y := 0, pointer_x := 0, bar_y := 0, bar_x := 0 }, label := [] }).label = ['C', 'P', 'U', '8', ' '] := by decide
example : ramUsage 8 2 = 75 := by norm_num [ramUsage, round_eq]
example : (basicInit blankScreen).1.1.bar_x = 8 := by decide
example : runUpdate (basicInit blankScreen).1.1 0 (basicInit blankScreen).2 1 7 = '┌' := by decide
example : runUpdate (basicInit blankScreen).1.1 0 (basicInit blankScreen).2 1 8 = '0' := by decide

lemma runUpdates_append_valid (g : BarGraph) {v : Int} (h0 : 0 ≤ v) (h1 : v ≤ 100) :
    ∀ (vs : List Int), (∀ u ∈ vs, 0 ≤ u ∧ u ≤ 100) → ∀ s,
      runUpdates g (vs ++ [v]) s = runUpdate g v s := by
  intro vs
  induction vs with
  | nil => intro _ s; rfl
  | cons u us ih =>
    intro hvs s
    have hu := hvs u (List.mem_cons_self u us)
    have hrest : ∀ w ∈ us, 0 ≤ w ∧ w ≤ 100 := fun w hw => hvs w (List.mem_cons_of_mem u hw)
    have step : runUpdates g ((u :: us) ++ [v]) s = runUpdates g (us ++ [v]) (runUpdate g u s) := rfl
    rw [step, ih hrest (runUpdate g u s)]
    exact runUpdate_runUpdate g hu.1 hu.2 h0 h1 s

/-- C1: for every integer value `v` in `[0, 100]` the update computes the
filled-block count `blocks = ⌊v / 5⌋`, and the bar row it draws holds
exactly `min blocks 19` filled glyphs followed by `19 - blocks` empty
glyphs when `v < 100`, and exactly `blocks - 1 = 19` filled glyphs (with
the cell past the bar untouched) when `v = 100`. -/
theorem bar_row_rendering (g : BarGraph) (s : Screen) (v : Int)
    (h0 : 0 ≤ v) (h1 : v ≤ 100) :
    ((v.toNat / 5 : Int) = v / 5) ∧
    (v < 100 → ∀ i, i < 19 →
      runUpdate g v s g.bar_y (g.bar_x + i) =
        if i < min (v.toNat / 5) 19 then '█' else '░') ∧
    (v = 100 →
      (v.toNat / 5 - 1 = 19) ∧
      (∀ i, i < 19 → runUpdate g v s g.bar_y (g.bar_x + i) = '█') ∧
      (g.pointer_y ≠ g.bar_y →
        runUpdate g v s g.bar_y (g.bar_x + 19) = s g.bar_y (g.bar_x + 19))) := by
  have hn : v.toNat ≤ 100 := by omega
  have hb := barCells_length hn
  refine ⟨by omega, ?_, ?_⟩
  · intro hv i hi
    rw [runUpdate_valid g h0 h1, barDraw_apply]
    rw [if_pos ⟨rfl, by omega, by omega⟩]
    have hidx : g.bar_x + i - g.bar_x = i := by omega
    rw [hidx, barCells_getD hn hi]
    have h100 : v.toNat ≠ 100 := by omega
    have hmin : min (v.toNat / 5) 19 = v.toNat / 5 := by omega
    rw [if_neg h100, hmin]
  · intro hv
    have h100 : v.toNat = 100 := by omega
    refine ⟨by omega, ?_, ?_⟩
    · intro i hi
      rw [runUpdate_valid g h0 h1, barDraw_apply]
      rw [if_pos ⟨rfl, by omega, by omega⟩]
      have hidx : g.bar_x + i - g.bar_x = i := by omega
      rw [hidx, barCells_getD hn hi, if_pos h100]
    · intro hne
      rw [runUpdate_valid g h0 h1, barDraw_apply]
      split_ifs <;> first | rfl | omega

/-- Witness for C1: the theorem instantiated at a concrete graph with
`v = 50`, evaluated on cell 9 of the bar row. -/
theorem bar_row_rendering_witness :
    (0 : Int) ≤ 50 ∧ (50 : Int) ≤ 100 ∧ (50 : Int) < 100 ∧ (9 : Nat) < 19 ∧
    runUpdate demoGraph 50 blankScreen demoGraph.bar_y (demoGraph.bar_x + 9) =
      (if 9 < min ((50 : Int).toNat / 5) 19 then '█' else '░') := by
  refine ⟨by decide, by decide, by decide, by decide, ?_⟩
  exact (bar_row_rendering demoGraph blankScreen 50 (by decide) (by decide)).2.1
    (by decide) 9 (by decide)

/-- C5: for every value outside `[0, 100]` the update fails its range
assertion with the assertion's message, and the display surface is left
exactly as it was (the assertion fires before any drawing). -/
theorem update_range_precondition (g : BarGraph) (s : Screen) (v : Int)
    (h : v < 0 ∨ 100 < v) :
    barUpdate g v s = Except.error rangeMsg ∧ runUpdate g v s = s := by
  have hcond : ¬(0 ≤ v ∧ v ≤ 100) := by omega
  constructor
  · unfold barUpdate
    rw [if_neg hcond]
  · unfold runUpdate barUpdate
    rw [if_neg hcond]

/-- Witness for C5: the theorem instantiated at `v = -1` and at `v = 101`
on a concrete graph and a blank screen. -/
theorem update_range_precondition_witness :
    ((-1 : Int) < 0 ∨ 100 < (-1 : Int)) ∧
    barUpdate demoGraph (-1) blankScreen = Except.error rangeMsg ∧
    runUpdate demoGraph (-1) blankScreen = blankScreen ∧
    ((101 : Int) < 0 ∨ 100 < (101 : Int)) ∧
    barUpdate demoGraph 101 blankScreen = Except.error rangeMsg ∧
    runUpdate demoGraph 101 blankScreen = blankScreen := by
  refine ⟨Or.inl (by decide), ?_, ?_, Or.inr (by decide), ?_, ?_⟩
  · exact (update_range_precondition demoGraph blankScreen (-1) (Or.inl (by decide))).1
  · exact (update_range_precondition demoGraph blankScreen (-1) (Or.inl (by decide))).2
  · exact (update_range_precondition demoGraph blankScreen 101 (Or.inr (by decide))).1
  · exact (update_range_precondition demoGraph blankScreen 101 (Or.inr (by decide))).2

/-- C6: the update is idempotent — for every value in range and every
starting display state, updating twice with the same value leaves the
surface exactly as updating once does. -/
theorem update_idempotent (g : BarGraph) (s : Screen) (v : Int)
    (h0 : 0 ≤ v) (h1 : v ≤ 100) :
    runUpdate g v (runUpdate g v s) = runUpdate g v s :=
  runUpdate_runUpdate g h0 h1 h0 h1 s

/-- Witness for C6: the theorem instantiated at `v = 50` on a concrete
graph and a blank screen. -/
theorem update_idempotent_witness :
    (0 : Int) ≤ 50 ∧ (50 : Int) ≤ 100 ∧
    runUpdate demoGraph 50 (runUpdate demoGraph 50 blankScreen) =
      runUpdate demoGraph 50 blankScreen := by
  exact ⟨by decide, by decide, update_idempotent demoGraph blankScreen 50 (by decide) (by decide)⟩

/-- C7: after any sequence of in-range update calls the surface equals the
surface produced by the last update alone, so the pointer and bar are
positionally consistent with the last value and no glyph of an earlier
pointer remains; moreover the new pointer text lies inside the 25-cell
blank overwrite that starts at the pointer anchor. -/
theorem update_last_write_wins (g : BarGraph) (s : Screen) (vs : List Int) (v : Int)
    (hvs : ∀ u ∈ vs, 0 ≤ u ∧ u ≤ 100) (h0 : 0 ≤ v) (h1 : v ≤ 100) :
    runUpdates g (vs ++ [v]) s = runUpdate g v s ∧
    g.pointer_x + v.toNat / 5 + (ptrText v.toNat).length ≤ g.pointer_x + 25 := by
  constructor
  · exact runUpdates_append_valid g h0 h1 vs hvs s
  · have := ptrText_span (show v.toNat ≤ 100 by omega)
    omega

/-- Witness for C7: the theorem instantiated with the earlier values
`[30, 99]` and the final value `100` on a concrete graph. -/
theorem update_last_write_wins_witness :
    (∀ u ∈ [(30 : Int), 99], 0 ≤ u ∧ u ≤ 100) ∧ (0 : Int) ≤ 100 ∧ (100 : Int) ≤ 100 ∧
    runUpdates demoGraph ([30, 99] ++ [100]) blankScreen = runUpdate demoGraph 100 blankScreen ∧
    demoGraph.pointer_x + (100 : Int).toNat / 5 + (ptrText (100 : Int).toNat).length ≤
      demoGraph.pointer_x + 25 := by
  refine ⟨by decide, by decide, by decide, ?_, ?_⟩
  · exact (update_last_write_wins demoGraph blankScreen [30, 99] 100
      (by decide) (by decide) (by decide)).1
  · exact (update_last_write_wins demoGraph blankScreen [30, 99] 100
      (by decide) (by decide) (by decide)).2

/-- C8: an in-range update writes only to the pointer row and to the 19
bar cells between the brackets: every cell outside that footprint keeps
its previous content; in particular, for the geometry produced by
construction, the bar-row cells left of the bar (label, separator and
opening bracket), the closing bracket, and everything below the bar row
(the scale row with the 0/100 marks) are unchanged. -/
theorem update_frame_effect (g : BarGraph) (s : Screen) (v : Int)
    (h0 : 0 ≤ v) (h1 : v ≤ 100) :
    (∀ r c, r ≠ g.pointer_y → ¬(r = g.bar_y ∧ g.bar_x ≤ c ∧ c < g.bar_x + 19) →
      runUpdate g v s r c = s r c) ∧
    (g.bar_y = g.pointer_y + 1 →
      (∀ c, c < g.bar_x → runUpdate g v s g.bar_y c = s g.bar_y c) ∧
      (∀ c, g.bar_x + 19 ≤ c → runUpdate g v s g.bar_y c = s g.bar_y c) ∧
      (∀ r c, g.bar_y < r → runUpdate g v s r c = s r c)) := by
  have hn : v.toNat ≤ 100 := by omega
  have hb := barCells_length hn
  have hfoot : ∀ r c, r ≠ g.pointer_y → ¬(r = g.bar_y ∧ g.bar_x ≤ c ∧ c < g.bar_x + 19) →
      runUpdate g v s r c = s r c := by
    intro r c hr hbar
    rw [runUpdate_valid g h0 h1, barDraw_apply]
    split_ifs <;> first | rfl | omega
  refine ⟨hfoot, fun hy => ⟨?_, ?_, ?_⟩⟩
  · intro c hc
    exact hfoot g.bar_y c (by omega) (by omega)
  · intro c hc
    exact hfoot g.bar_y c (by omega) (by omega)
  · intro r c hr
    exact hfoot r c (by omega) (by omega)

/-- Witness for C8: the theorem instantiated at `v = 100` on a concrete
graph, checking the cell right of the closing bracket and a cell of the
scale row. -/
theorem update_frame_effect_witness :
    (0 : Int) ≤ 100 ∧ (100 : Int) ≤ 100 ∧ (3 : Nat) ≠ demoGraph.pointer_y ∧
    ¬((3 : Nat) = demoGraph.bar_y ∧ demoGraph.bar_x ≤ 5 ∧ 5 < demoGraph.bar_x + 19) ∧
    runUpdate demoGraph 100 blankScreen 3 5 = blankScreen 3 5 ∧
    demoGraph.bar_y = demoGraph.pointer_y + 1 ∧
    runUpdate demoGraph 100 blankScreen demoGraph.bar_y (demoGraph.bar_x + 19) =
      blankScreen demoGraph.bar_y (demoGraph.bar_x + 19) := by
  refine ⟨by decide, by decide, by decide, by decide, ?_, by decide, ?_⟩
  · exact (update_frame_effect demoGraph blankScreen 100 (by decide) (by decide)).1
      3 5 (by decide) (by decide)
  · exact ((update_frame_effect demoGraph blankScreen 100 (by decide) (by decide)).2
      (by decide)).2.1 (demoGraph.bar_x + 19) (by omega)

/-- C2 counterexample: the claim places the pointer at column offset
`blocks` from the bar-start column `bar_x` and, at `v = 0`, exactly at
`bar_x`.  On the aggregate CPU graph created by `basic_init` the bar-start
column is 8, yet after `update(0)` the cell at column 8 of the pointer row
holds the digit `0` — the pointer glyph `┌` sits one column further left,
at column 7, above the opening bracket. -/
theorem pointer_offset_cex :
    (basicInit blankScreen).1.1.bar_x = 8 ∧
    (basicInit blankScreen).1.1.pointer_y = 1 ∧
    runUpdate (basicInit blankScreen).1.1 0 (basicInit blankScreen).2 1 (8 + 0) = '0' ∧
    runUpdate (basicInit blankScreen).1.1 0 (basicInit blankScreen).2 1 (8 - 1) = '┌' ∧
    '0' ≠ '┌' := by
  refine ⟨by decide, by decide, by decide, by decide, by decide⟩

/-- C2 amended: the pointer text `"┌<v>%"` is drawn at column offset
`blocks` from the pointer anchor column, which is one column left of the
bar-start column; hence its offset from the bar-start column is
`blocks - 1`, and at `v = 0` the pointer sits one column left of the
bar-start column, above the opening bracket. -/
theorem pointer_offset_amended (g : BarGraph) (s : Screen) (v : Int)
    (h0 : 0 ≤ v) (h1 : v ≤ 100)
    (hx : g.bar_x = g.pointer_x + 1) (hy : g.bar_y = g.pointer_y + 1) :
    g.pointer_x + v.toNat / 5 + 1 = g.bar_x + v.toNat / 5 ∧
    ∀ j, j < (ptrText v.toNat).length →
      runUpdate g v s g.pointer_y (g.pointer_x + v.toNat / 5 + j) =
        (ptrText v.toNat).getD j ' ' := by
  refine ⟨by omega, ?_⟩
  intro j hj
  rw [runUpdate_valid g h0 h1, barDraw_apply]
  rw [if_neg (by omega), if_pos ⟨rfl, by omega, by omega⟩]
  have hidx : g.pointer_x + v.toNat / 5 + j - (g.pointer_x + v.toNat / 5) = j := by omega
  rw [hidx]

/-- Witness for C2: the amended theorem instantiated at `v = 0` on the
aggregate CPU graph of `basic_init`, evaluating the `┌` glyph cell. -/
theorem pointer_offset_amended_witness :
    (0 : Int) ≤ 0 ∧ (0 : Int) ≤ 100 ∧
    (basicInit blankScreen).1.1.bar_x = (basicInit blankScreen).1.1.pointer_x + 1 ∧
    (basicInit blankScreen).1.1.bar_y = (basicInit blankScreen).1.1.pointer_y + 1 ∧
    (0 : Nat) < (ptrText (0 : Int).toNat).length ∧
    runUpdate (basicInit blankScreen).1.1 0 (basicInit blankScreen).2
      (basicInit blankScreen).1.1.pointer_y
      ((basicInit blankScreen).1.1.pointer_x + (0 : Int).toNat / 5 + 0) =
      (ptrText (0 : Int).toNat).getD 0 ' ' := by
  refine ⟨by decide, by decide, by decide, by decide, by decide, ?_⟩
  exact (pointer_offset_amended (basicInit blankScreen).1.1 (basicInit blankScreen).2 0
    (by decide) (by decide) (by decide) (by decide)).2 0 (by decide)

/-- C3 counterexample: the claim computes the row count as `⌈C / 2⌉`, but
`advanced_init` uses truncating division: with 5 reported cores it creates
`2 * ⌊5 / 2⌋ = 4` graphs, not `2 * ⌈5 / 2⌉ = 6`. -/
theorem advanced_rows_cex :
    (advancedInit 5 blankScreen).1.length = 4 ∧
    2 * ((5 + 1) / 2) = 6 ∧ (4 : Nat) ≠ 6 := by decide

/-- C3 amended: advanced-mode initialization creates exactly `2 * N`
graphs over `N = ⌊C / 2⌋` rows (truncating, so an odd last core gets no
graph), one pair per row, labeled `CPU1`, `CPU2`, … with the running core
index increasing left-to-right, top-to-bottom: graph `k` (0-based) sits in
row `⌊k / 2⌋`, at anchor column 1 when `k` is even and 32 when `k` is odd,
and carries label `CPU<k+1>`; with 8 cores this gives 4 rows of 2 graphs
labeled `CPU1`..`CPU8`. -/
theorem advanced_layout_amended (C : Nat) (s : Screen) :
    (advancedInit C s).1.length = 2 * (C / 2) ∧
    ∀ k, k < 2 * (C / 2) →
      ((advancedInit C s).1.getD k mgDefault).label = cpuLabel (k + 1) ∧
      ((advancedInit C s).1.getD k mgDefault).g.pointer_y = 3 * (k / 2) + 6 ∧
      ((advancedInit C s).1.getD k mgDefault).g.pointer_x =
        (if k % 2 = 0 then 1 else 32) + (cpuLabel (k + 1)).length + 1 := by
  constructor
  · exact advLoop_length (C / 2) 0 1 _
  · intro k hk
    have h := advLoop_getD (C / 2) 0 1
      (addstr (rectangle s 5 0 (6 + 3 * (C / 2)) 63) 5 2 advancedTitle) k hk
    have e1 : 1 + k = k + 1 := by omega
    have e2 : 0 + k / 2 = k / 2 := by omega
    rw [e1, e2] at h
    exact ⟨h.1, h.2.1, h.2.2.1⟩

/-- Witness for C3: the amended theorem instantiated at 8 cores, reading
off the last graph (`CPU8`, right column of row 3). -/
theorem advanced_layout_amended_witness :
    (advancedInit 8 blankScreen).1.length = 2 * (8 / 2) ∧
    (7 : Nat) < 2 * (8 / 2) ∧
    ((advancedInit 8 blankScreen).1.getD 7 mgDefault).label = cpuLabel (7 + 1) ∧
    ((advancedInit 8 blankScreen).1.getD 7 mgDefault).g.pointer_y = 3 * (7 / 2) + 6 ∧
    ((advancedInit 8 blankScreen).1.getD 7 mgDefault).g.pointer_x =
      (if 7 % 2 = 0 then 1 else 32) + (cpuLabel (7 + 1)).length + 1 := by
  refine ⟨(advanced_layout_amended 8 blankScreen).1, by decide, ?_, ?_, ?_⟩
  · exact ((advanced_layout_amended 8 blankScreen).2 7 (by decide)).1
  · exact ((advanced_layout_amended 8 blankScreen).2 7 (by decide)).2.1
  · exact ((advanced_layout_amended 8 blankScreen).2 7 (by decide)).2.2

lemma zipLoop_eq_pushEach : ∀ (gs : List BarGraph) (vs : List Int), gs.length = vs.length →
    ∀ s, zipLoop (gs.zip vs) s = pushEach gs vs s := by
  intro gs
  induction gs with
  | nil =>
    intro vs h s
    cases vs with
    | nil => rfl
    | cons vv vvs => simp at h
  | cons gg gss ih =>
    intro vs h s
    cases vs with
    | nil => simp at h
    | cons vv vvs =>
      have h' : gss.length = vvs.length := by simpa using h
      simp only [List.zip_cons_cons, zipLoop, pushEach]
      cases hbu : barUpdate gg vv s with
      | error e => rfl
      | ok t =>
        simp only [Except.bind]
        exact ih vvs h' t

/-- C4: `advanced_update` validates that the graph collection and the
per-core sample sequence have equal lengths before pushing any value — a
mismatch yields the assertion's error and no screen (no truncation or
padding) — and when the lengths are equal it pushes each value to the
graph at the same position. -/
theorem advanced_update_validation (gs : List BarGraph) (vs : List Int) (s : Screen) :
    (gs.length ≠ vs.length → advancedUpdate gs vs s = Except.error mismatchMsg) ∧
    (gs.length = vs.length → advancedUpdate gs vs s = pushEach gs vs s) := by
  constructor
  · intro h
    unfold advancedUpdate
    rw [if_neg h]
  · intro h
    unfold advancedUpdate
    rw [if_pos h]
    exact zipLoop_eq_pushEach gs vs h s

/-- Witness for C4: a two-graph collection fed two samples matches the
positional push, and fed three samples fails with the mismatch error. -/
theorem advanced_update_validation_witness :
    [demoGraph, demoGraph].length = [(10 : Int), 20].length ∧
    advancedUpdate [demoGraph, demoGraph] [10, 20] blankScreen =
      pushEach [demoGraph, demoGraph] [10, 20] blankScreen ∧
    [demoGraph, demoGraph].length ≠ [(10 : Int), 20, 30].length ∧
    advancedUpdate [demoGraph, demoGraph] [10, 20, 30] blankScreen =
      Except.error mismatchMsg := by
  refine ⟨by decide, ?_, by decide, ?_⟩
  · exact (advanced_update_validation [demoGraph, demoGraph] [10, 20] blankScreen).2 (by decide)
  · exact (advanced_update_validation [demoGraph, demoGraph] [10, 20, 30] blankScreen).1 (by decide)

/-- C9: the basic-mode update pushes to the RAM graph the value
`round((total - available) / total * 100)` — used memory as a percent of
total, rounded to the nearest integer (within one half of the exact
percentage, and inside `[0, 100]`). -/
theorem ram_usage_rounding (total available : Nat) (cg rg : BarGraph) (cpuSample : Int)
    (s : Screen) (ht : 0 < total) (ha : available ≤ total) :
    2 * |ramUsage total available * total - ((total : Int) - available) * 100| ≤ total ∧
    0 ≤ ramUsage total available ∧ ramUsage total available ≤ 100 ∧
    basicUpdate cg rg cpuSample total available s =
      (barUpdate cg cpuSample s).bind
        (fun s1 => barUpdate rg (ramUsage total available) s1) := by
  set q : ℚ := (((total : ℚ) - (available : ℚ)) / (total : ℚ)) * 100 with hqdef
  have htq : (0 : ℚ) < total := by exact_mod_cast ht
  have haq : (available : ℚ) ≤ total := by exact_mod_cast ha
  have hr : ramUsage total available = round q := rfl
  have hround : |q - (round q : ℚ)| ≤ 1 / 2 := abs_sub_round q
  have hq0 : 0 ≤ q := by
    apply mul_nonneg
    · exact div_nonneg (by linarith) (le_of_lt htq)
    · norm_num
  have hq100 : q ≤ 100 := by
    have hdiv : ((total : ℚ) - available) / total ≤ 1 := by
      rw [div_le_one htq]
      linarith
    calc q = (((total : ℚ) - available) / total) * 100 := rfl
      _ ≤ 1 * 100 := by
          apply mul_le_mul_of_nonneg_right hdiv
          norm_num
      _ = 100 := by ring
  have hr0 : 0 ≤ round q := by
    rw [round_eq]
    apply Int.le_floor.mpr
    push_cast
    linarith
  have hr100 : round q ≤ 100 := by
    rw [round_eq]
    have h101 : (⌊q + 1 / 2⌋ : ℤ) < 101 := by
      apply Int.floor_lt.mpr
      push_cast
      linarith
    omega
  have hqt : q * total = ((total : ℚ) - available) * 100 := by
    rw [hqdef]
    field_simp
  have key : (2 : ℚ) * |(round q : ℚ) * total - ((total : ℚ) - available) * 100| ≤ total := by
    calc (2 : ℚ) * |(round q : ℚ) * total - ((total : ℚ) - available) * 100|
        = 2 * |(round q : ℚ) * total - q * total| := by rw [hqt]
      _ = 2 * (|(round q : ℚ) - q| * total) := by
          rw [← sub_mul, abs_mul, abs_of_pos htq]
      _ ≤ 2 * ((1 / 2) * total) := by
          have h' : |(round q : ℚ) - q| ≤ 1 / 2 := by
            rw [abs_sub_comm]
            exact hround
          have := mul_le_mul_of_nonneg_right h' (le_of_lt htq)
          linarith
      _ = total := by ring
  refine ⟨?_, by rw [hr]; exact hr0, by rw [hr]; exact hr100, rfl⟩
  rw [hr]
  exact_mod_cast key

/-- Witness for C9: the theorem instantiated at a snapshot of 8 total and
2 available bytes (75 percent used), together with the concrete value. -/
theorem ram_usage_rounding_witness :
    (0 : Nat) < 8 ∧ (2 : Nat) ≤ 8 ∧ ramUsage 8 2 = 75 ∧
    2 * |ramUsage 8 2 * 8 - ((8 : Int) - 2) * 100| ≤ 8 ∧
    0 ≤ ramUsage 8 2 ∧ ramUsage 8 2 ≤ 100 := by
  have h := ram_usage_rounding 8 2 demoGraph demoGraph 0 blankScreen
    (by decide) (by decide)
  refine ⟨by decide, by decide, by norm_num [ramUsage, round_eq], h.1, h.2.1, h.2.2.1⟩

/-- C10 (implicit): every label `advanced_init` builds has length exactly
5 for core indices 1 through 99 (the index is left-justified in a
two-character field), so every left-column graph has bar-start column 8
and every right-column graph has bar-start column 39, independent of the
core index. -/
theorem advanced_label_width (C : Nat) (s : Screen) (hC : C ≤ 99) :
    (∀ i, 1 ≤ i → i ≤ 99 → (cpuLabel i).length = 5) ∧
    ∀ k, k < 2 * (C / 2) →
      ((advancedInit C s).1.getD k mgDefault).label.length = 5 ∧
      (k % 2 = 0 → ((advancedInit C s).1.getD k mgDefault).g.bar_x = 8) ∧
      (k % 2 = 1 → ((advancedInit C s).1.getD k mgDefault).g.bar_x = 39) := by
  have hlab : ∀ i, i < 100 → (cpuLabel i).length = 5 := by decide
  constructor
  · intro i h1 h2
    exact hlab i (by omega)
  · intro k hk
    have h := advLoop_getD (C / 2) 0 1
      (addstr (rectangle s 5 0 (6 + 3 * (C / 2)) 63) 5 2 advancedTitle) k hk
    have hl5 : (cpuLabel (1 + k)).length = 5 := hlab (1 + k) (by omega)
    refine ⟨?_, ?_, ?_⟩
    · have hlabel := h.1
      have goal1 : ((advancedInit C s).1.getD k mgDefault).label = cpuLabel (1 + k) := hlabel
      rw [goal1, hl5]
    · intro hpar
      have hb := h.2.2.2.2
      rw [if_pos hpar, hl5] at hb
      have goal2 : ((advancedInit C s).1.getD k mgDefault).g.bar_x = 1 + 5 + 2 := hb
      rw [goal2]
    · intro hpar
      have hb := h.2.2.2.2
      rw [if_neg (by omega), hl5] at hb
      have goal3 : ((advancedInit C s).1.getD k mgDefault).g.bar_x = 32 + 5 + 2 := hb
      rw [goal3]

/-- Witness for C10: the theorem instantiated at 8 cores, reading off the
`CPU10` label width and the bar-start columns of graphs 0 and 1. -/
theorem advanced_label_width_witness :
    (8 : Nat) ≤ 99 ∧ (1 : Nat) ≤ 10 ∧ (10 : Nat) ≤ 99 ∧ (cpuLabel 10).length = 5 ∧
    (0 : Nat) < 2 * (8 / 2) ∧ (1 : Nat) < 2 * (8 / 2) ∧
    ((advancedInit 8 blankScreen).1.getD 0 mgDefault).g.bar_x = 8 ∧
    ((advancedInit 8 blankScreen).1.getD 1 mgDefault).g.bar_x = 39 := by
  refine ⟨by decide, by decide, by decide, ?_, by decide, by decide, ?_, ?_⟩
  · exact (advanced_label_width 8 blankScreen (by decide)).1 10 (by decide) (by decide)
  · exact ((advanced_label_width 8 blankScreen (by decide)).2 0 (by decide)).2.1 (by decide)
  · exact ((advanced_label_width 8 blankScreen (by decide)).2 1 (by decide)).2.2 (by decide)
